import Mathlib

/-!
Verification of the PTY terminal core of this repository
(`web_poc/textual_browser/pty_process.py` and
`web_poc/textual_browser/terminal_widget.py`) against its specification.

Python byte strings are modelled as `List Nat` (each element < 256 where the
code guarantees it), Python `str` values as `List Char` (a Python string is a
sequence of code points).  Stateful methods are modelled as explicit state
passing functions that additionally return the list of externally visible
effects they perform, in order.
-/

/-- Python `bytes` values: a list of byte values. -/
abbrev Bytes := List Nat

/-- Python `str` values: a list of Unicode code points. -/
abbrev PyStr := List Char

/-- Coerce a Lean string literal to the `PyStr` model. -/
def pstr (s : String) : PyStr := s.data

/- ================================================================
   pty_process.py : exit-status classification
   ================================================================ -/

/-- Low seven bits of a POSIX wait status (the field inspected by
`WIFEXITED` / `WTERMSIG`). -/
def wstatusLow (status : Nat) : Nat := status % 128

/-- `os.WIFEXITED(status)`: the process exited normally
(glibc: `(status & 0x7f) == 0`). -/
def wifexited (status : Nat) : Prop := wstatusLow status = 0

instance (status : Nat) : Decidable (wifexited status) := by
  unfold wifexited; infer_instance

/-- `os.WIFSIGNALED(status)`: the process was killed by a signal.  glibc
computes `((signed char)(((status & 0x7f) + 1) >> 1)) > 0`, which holds
exactly when the low seven bits are in `1 .. 126`. -/
def wifsignaled (status : Nat) : Prop :=
  1 ≤ wstatusLow status ∧ wstatusLow status ≤ 126

instance (status : Nat) : Decidable (wifsignaled status) := by
  unfold wifsignaled; infer_instance

/-- `os.WEXITSTATUS(status)`: bits 8..15 of the status. -/
def wexitstatus (status : Nat) : Nat := status / 256 % 256

/-- `os.WTERMSIG(status)`: the terminating signal number. -/
def wtermsig (status : Nat) : Nat := wstatusLow status

/-- Shared classification logic of `PTYProcess._poll_exit_status` and
`PTYProcess._wait_blocking`: a normal exit yields the (non-negative) exit
status, a signal death yields minus the signal number, anything else
(e.g. a stop notification) yields `none`. -/
def classifyStatus (status : Nat) : Option Int :=
  if wifexited status then some (wexitstatus status)
  else if wifsignaled status then some (-(wtermsig status : Int))
  else none

/-- Outcome of a `os.waitpid(pid, os.WNOHANG)` call as seen by
`_poll_exit_status`: the child may not have exited yet (`waitpid`
returned pid 0), may already be gone (`ChildProcessError`), or may be
reaped with a wait status. -/
inductive PollOutcome where
  | notExited
  | childGone
  | reaped (status : Nat)
deriving DecidableEq, Repr

/-- `PTYProcess._poll_exit_status`: `None` without a pid; a
`ChildProcessError` is turned into `(0, 0)` and, like a still-running
child, yields `None`; otherwise the status is classified. -/
def pollExitStatus (pid : Option Nat) (outcome : PollOutcome) : Option Int :=
  match pid with
  | none => none
  | some _ =>
    match outcome with
    | .notExited => none
    | .childGone => none
    | .reaped status => classifyStatus status

/-- Outcome of a blocking `os.waitpid(pid, 0)` call as seen by
`_wait_blocking`: either `ChildProcessError` or a wait status. -/
inductive WaitOutcome where
  | childGone
  | reaped (status : Nat)
deriving DecidableEq, Repr

/-- `PTYProcess._wait_blocking`: `None` without a pid or on
`ChildProcessError`, otherwise the classified wait status. -/
def waitBlocking (pid : Option Nat) (outcome : WaitOutcome) : Option Int :=
  match pid with
  | none => none
  | some _ =>
    match outcome with
    | .childGone => none
    | .reaped status => classifyStatus status

/- ================================================================
   pty_process.py : reader state machine (_on_data / _cleanup_reader)
   ================================================================ -/

/-- The fields of `PTYProcess` that `_on_data` and `_cleanup_reader`
consult: the master fd, whether the event-loop reference and the two
callbacks were installed by `spawn`, and the pid used when polling the
exit status. -/
structure PtyState where
  fd : Option Nat
  hasLoop : Bool
  hasReadCb : Bool
  hasExitCb : Bool
  pid : Option Nat
deriving DecidableEq, Repr

/-- What `os.read(fd, 4096)` produced on one readiness notification:
a chunk of bytes (possibly empty, meaning EOF) or an `OSError`. -/
inductive ReadEvent where
  | chunk (data : Bytes)
  | readError
deriving DecidableEq, Repr

/-- Externally visible effects of the reader callback. -/
inductive PtyEffect where
  | deliver (data : Bytes)
  | removeReader (fd : Nat)
  | closeFd (fd : Nat)
  | exitNotify (code : Option Int)
deriving DecidableEq, Repr

/-- `PTYProcess._cleanup_reader`: unregister the reader (when a loop and
an fd are present), close the fd exactly once, and clear it. -/
def cleanupReader (st : PtyState) : PtyState × List PtyEffect :=
  let unregister : List PtyEffect :=
    match st.hasLoop, st.fd with
    | true, some f => [.removeReader f]
    | _, _ => []
  let closing : List PtyEffect :=
    match st.fd with
    | some f => [.closeFd f]
    | none => []
  ({ st with fd := none }, unregister ++ closing)

/-- `PTYProcess._on_data`: guard on a missing fd or read callback; an
`OSError` is treated as an empty read; non-empty data is delivered;
an empty read tears the reader down and fires the exit callback with
the polled exit classification. -/
def onData (st : PtyState) (ev : ReadEvent) (poll : PollOutcome) :
    PtyState × List PtyEffect :=
  if st.fd = none ∨ st.hasReadCb = false then (st, [])
  else
    let data : Bytes := match ev with
      | .chunk d => d
      | .readError => []
    if data ≠ [] then (st, [.deliver data])
    else
      let (st1, effs) := cleanupReader st
      if st.hasExitCb then
        (st1, effs ++ [.exitNotify (pollExitStatus st.pid poll)])
      else (st1, effs)

/-- Run the reader callback over a whole sequence of readiness
notifications, accumulating the produced effects in order. -/
def runReads (st : PtyState) : List (ReadEvent × PollOutcome) →
    PtyState × List PtyEffect
  | [] => (st, [])
  | (ev, poll) :: rest =>
    let (st1, effs) := onData st ev poll
    let (st2, effs2) := runReads st1 rest
    (st2, effs ++ effs2)

/-- A readiness notification that ends the stream: an empty read (EOF)
or a read error. -/
def isEnding (ev : ReadEvent) : Bool :=
  match ev with
  | .chunk d => d.isEmpty
  | .readError => true

/-- Number of `closeFd` effects in a trace. -/
def countCloses (effs : List PtyEffect) : Nat :=
  effs.countP fun e => match e with | .closeFd _ => true | _ => false

/-- Number of `exitNotify` effects in a trace. -/
def countExits (effs : List PtyEffect) : Nat :=
  effs.countP fun e => match e with | .exitNotify _ => true | _ => false

/- ================================================================
   terminal_widget.py : key translation (_translate_key, _ctrl_sequence)
   ================================================================ -/

/-- Python dictionary lookup (`d[k]` guarded by `k in d`), over the
fixed string-keyed tables of the widget. -/
def assocFind {α : Type} : List (PyStr × α) → PyStr → Option α
  | [], _ => none
  | (k, v) :: rest, s => if s = k then some v else assocFind rest s

/-- The fixed named-key table of `TerminalPane._translate_key`. -/
def keyMap : List (PyStr × Bytes) :=
  [ (pstr "enter", [10]),
    (pstr "return", [13]),
    (pstr "tab", [9]),
    (pstr "escape", [27]),
    (pstr "esc", [27]),
    (pstr "backspace", [0x7f]),
    (pstr "shift+tab", [27, 91, 90]),
    (pstr "up", [27, 91, 65]),
    (pstr "down", [27, 91, 66]),
    (pstr "right", [27, 91, 67]),
    (pstr "left", [27, 91, 68]),
    (pstr "home", [27, 91, 72]),
    (pstr "end", [27, 91, 70]),
    (pstr "pageup", [27, 91, 53, 126]),
    (pstr "pagedown", [27, 91, 54, 126]),
    (pstr "insert", [27, 91, 50, 126]),
    (pstr "delete", [27, 91, 51, 126]) ]

/-- The special-case table of `TerminalPane._ctrl_sequence`. -/
def ctrlSpecial : List (PyStr × Bytes) :=
  [ (pstr "space", [0x00]),
    (pstr "@", [0x00]),
    (pstr "[", [0x1b]),
    (pstr "\\", [0x1c]),
    (pstr "]", [0x1d]),
    (pstr "^", [0x1e]),
    (pstr "_", [0x1f]),
    (pstr "?", [0x7f]) ]

/-- `TerminalPane._ctrl_sequence`: special table first, then a single
character is uppercased (`str.upper`, modelled by `Char.toUpper`, which
agrees on the ASCII range the widget receives) and masked with `0x1F`. -/
def ctrlSequence (suffix : PyStr) : Option Bytes :=
  match assocFind ctrlSpecial suffix with
  | some b => some b
  | none =>
    match suffix with
    | [c] => some [c.toUpper.toNat &&& 0x1F]
    | _ => none

/-- Python `candidate.split("+")[-1]`: the segment after the last `+`. -/
def lastPlusSegment (s : PyStr) : PyStr :=
  (s.splitOn '+').getLastD []

/-- First loop of `_translate_key`: the first candidate present in the
named-key table wins. -/
def findNamed : List PyStr → Option Bytes
  | [] => none
  | c :: rest =>
    match assocFind keyMap c with
    | some b => some b
    | none => findNamed rest

/-- Second loop of `_translate_key`: the first candidate carrying a
`ctrl+`/`control+` prefix whose suffix has a control sequence wins. -/
def findCtrl : List PyStr → Option Bytes
  | [] => none
  | c :: rest =>
    if (pstr "ctrl+").isPrefixOf c || (pstr "control+").isPrefixOf c then
      match ctrlSequence (lastPlusSegment c) with
      | some b => some b
      | none => findCtrl rest
    else findCtrl rest

/-- UTF-8 encoding of one code point (Python `str.encode("utf-8")`,
per character; `Char` excludes surrogates just as Python refuses to
encode them). -/
def utf8EncodeChar (c : Char) : Bytes :=
  let n := c.toNat
  if n < 0x80 then [n]
  else if n < 0x800 then [0xC0 + n / 64, 0x80 + n % 64]
  else if n < 0x10000 then
    [0xE0 + n / 4096, 0x80 + n / 64 % 64, 0x80 + n % 64]
  else
    [0xF0 + n / 262144, 0x80 + n / 4096 % 64, 0x80 + n / 64 % 64, 0x80 + n % 64]

/-- UTF-8 encoding of a Python string. -/
def utf8Encode (s : PyStr) : Bytes := s.flatMap utf8EncodeChar

/-- `TerminalPane._translate_key` on the (already lowercased) candidate
list and the event's literal character (`none` models a `None`
character; Python also treats an empty character string as falsy). -/
def translateKey (candidates : List PyStr) (character : Option PyStr) :
    Option Bytes :=
  match findNamed candidates with
  | some b => some b
  | none =>
    match findCtrl candidates with
    | some b => some b
    | none =>
      match character with
      | some s => if s.isEmpty then none else some (utf8Encode s)
      | none => none

/- ================================================================
   terminal_widget.py : mouse reporting
   ================================================================ -/

/-- The value of `event.button` handed to `_button_code`: the framework
delivers either a small integer or a button name. -/
inductive ButtonVal where
  | num (n : Int)
  | name (s : PyStr)
deriving DecidableEq, Repr

/-- `TerminalPane._button_code`: dictionary lookup with default 0. -/
def buttonCode (b : ButtonVal) : Int :=
  match b with
  | .num 0 => 0
  | .num 1 => 1
  | .num 2 => 2
  | .name s =>
    if s = pstr "left" then 0
    else if s = pstr "middle" then 1
    else if s = pstr "right" then 2
    else 0
  | _ => 0

/-- The modifier flags carried by a mouse event. -/
structure Modifiers where
  shift : Bool
  meta : Bool
  ctrl : Bool
deriving DecidableEq, Repr

/-- `TerminalPane._modifier_bits`: Shift=4, Meta=8, Ctrl=16. -/
def modifierBits (m : Modifiers) : Int :=
  let b1 : Int := if m.shift then Int.lor 0 4 else 0
  let b2 : Int := if m.meta then Int.lor b1 8 else b1
  if m.ctrl then Int.lor b2 16 else b2

/-- Decimal rendering of a Python integer inside an f-string. -/
def intDecimal (n : Int) : PyStr := (toString n).data

/-- Python `str.encode("ascii", "ignore")`: keep only ASCII code points. -/
def asciiEncodeIgnore (s : PyStr) : Bytes :=
  (s.filter fun c => c.toNat < 128).map Char.toNat

/-- Python `bytes(list)`: raises `ValueError` (modelled as `none`) unless
every element is in `0 .. 255`. -/
def bytesOfInts (l : List Int) : Option Bytes :=
  if l.all fun v => 0 ≤ v ∧ v ≤ 255 then some (l.map Int.toNat) else none

/-- The `legacy_button` value computed by `_encode_x10`: a release is
forced to base 3, modifier bits are OR'd into the low two button bits,
and a scroll base (≥ 64) replaces the masked value entirely. -/
def legacyButtonOf (buttonCodeArg : Int) (pressed : Bool) (m : Modifiers) : Int :=
  let base := if pressed then buttonCodeArg else 3
  let legacyMods : Int :=
    let b1 : Int := if m.shift then Int.lor 0 4 else 0
    let b2 : Int := if m.meta then Int.lor b1 8 else b1
    if m.ctrl then Int.lor b2 16 else b2
  if base ≥ 64 then base else Int.lor (Int.land base 0x3) legacyMods

/-- `TerminalPane._encode_x10`: the legacy (X10-style) mouse report.
`none` models both the `base < 0` early return and the `ValueError`
swallowed when a payload entry exceeds one byte. -/
def encodeX10 (buttonCodeArg col row : Int) (pressed : Bool)
    (m : Modifiers) : Option Bytes :=
  if buttonCodeArg < 0 then none
  else
    bytesOfInts
      [ 0x1B, 91, 77,
        legacyButtonOf buttonCodeArg pressed m + 32,
        min col 255 + 32,
        min row 255 + 32 ]

/-- `TerminalPane._send_mouse`: the SGR report bytes written first and
the optional legacy report written second.  `x`, `y` are the 0-based
event offsets; `col`/`row` are made 1-based. -/
def sendMouse (x y : Int) (buttonCodeArg : Int) (pressed : Bool)
    (m : Modifiers) : Bytes × Option Bytes :=
  let mods := Int.lor buttonCodeArg (modifierBits m)
  let col := max 0 x + 1
  let row := max 0 y + 1
  let suffix : PyStr := if pressed then pstr "M" else pstr "m"
  let sgr := asciiEncodeIgnore
    (pstr "\x1b[<" ++ intDecimal mods ++ pstr ";" ++ intDecimal col ++
      pstr ";" ++ intDecimal row ++ suffix)
  (sgr, encodeX10 buttonCodeArg col row pressed m)

/- ================================================================
   terminal_widget.py : output decoding (_handle_output)
   ================================================================ -/

/-- A UTF-8 continuation byte. -/
def isCont (b : Nat) : Bool := 0x80 ≤ b && b ≤ 0xBF

/-- Allowed first continuation byte of a three-byte sequence with lead
byte `b` (excluding overlong forms and surrogates, as CPython does). -/
def cont1Ok3 (b c1 : Nat) : Bool :=
  if b = 0xE0 then 0xA0 ≤ c1 && c1 ≤ 0xBF
  else if b = 0xED then 0x80 ≤ c1 && c1 ≤ 0x9F
  else isCont c1

/-- Allowed first continuation byte of a four-byte sequence with lead
byte `b` (excluding overlong forms and code points above U+10FFFF). -/
def cont1Ok4 (b c1 : Nat) : Bool :=
  if b = 0xF0 then 0x90 ≤ c1 && c1 ≤ 0xBF
  else if b = 0xF4 then 0x80 ≤ c1 && c1 ≤ 0x8F
  else isCont c1

/-- Python `bytes.decode("utf-8", errors="ignore")`: well-formed
sequences decode to their code point; an ill-formed portion is skipped
(the maximal valid subpart is consumed, per CPython's error handling)
and contributes nothing; a truncated sequence at the end of the input is
dropped.  Total by construction: with `errors="ignore"` the decode never
raises. -/
def utf8DecodeIgnore : Bytes → PyStr
  | [] => []
  | b :: rest =>
    if b < 0x80 then Char.ofNat b :: utf8DecodeIgnore rest
    else if 0xC2 ≤ b && b ≤ 0xDF then
      match rest with
      | [] => []
      | c1 :: rest1 =>
        if isCont c1 then
          Char.ofNat ((b - 0xC0) * 64 + (c1 - 0x80)) :: utf8DecodeIgnore rest1
        else utf8DecodeIgnore (c1 :: rest1)
    else if 0xE0 ≤ b && b ≤ 0xEF then
      match rest with
      | [] => []
      | c1 :: rest1 =>
        if cont1Ok3 b c1 then
          match rest1 with
          | [] => []
          | c2 :: rest2 =>
            if isCont c2 then
              Char.ofNat ((b - 0xE0) * 4096 + (c1 - 0x80) * 64 + (c2 - 0x80)) ::
                utf8DecodeIgnore rest2
            else utf8DecodeIgnore (c2 :: rest2)
        else utf8DecodeIgnore (c1 :: rest1)
    else if 0xF0 ≤ b && b ≤ 0xF4 then
      match rest with
      | [] => []
      | c1 :: rest1 =>
        if cont1Ok4 b c1 then
          match rest1 with
          | [] => []
          | c2 :: rest2 =>
            if isCont c2 then
              match rest2 with
              | [] => []
              | c3 :: rest3 =>
                if isCont c3 then
                  Char.ofNat ((b - 0xF0) * 262144 + (c1 - 0x80) * 4096 +
                      (c2 - 0x80) * 64 + (c3 - 0x80)) :: utf8DecodeIgnore rest3
                else utf8DecodeIgnore (c3 :: rest3)
            else utf8DecodeIgnore (c2 :: rest2)
        else utf8DecodeIgnore (c1 :: rest1)
    else utf8DecodeIgnore rest
termination_by l => l.length
decreasing_by all_goals simp <;> omega

/-- Python `bytes.decode("latin-1")`: every byte is one code point. -/
def latin1Decode (bs : Bytes) : PyStr := bs.map Char.ofNat

/-- Whether a byte string is entirely well-formed UTF-8 (whether a
strict `bytes.decode("utf-8")` would succeed). -/
def utf8Valid : Bytes → Bool
  | [] => true
  | b :: rest =>
    if b < 0x80 then utf8Valid rest
    else if 0xC2 ≤ b && b ≤ 0xDF then
      match rest with
      | [] => false
      | c1 :: rest1 => isCont c1 && utf8Valid rest1
    else if 0xE0 ≤ b && b ≤ 0xEF then
      match rest with
      | [] => false
      | c1 :: rest1 =>
        cont1Ok3 b c1 &&
          match rest1 with
          | [] => false
          | c2 :: rest2 => isCont c2 && utf8Valid rest2
    else if 0xF0 ≤ b && b ≤ 0xF4 then
      match rest with
      | [] => false
      | c1 :: rest1 =>
        cont1Ok4 b c1 &&
          match rest1 with
          | [] => false
          | c2 :: rest2 =>
            isCont c2 &&
              match rest2 with
              | [] => false
              | c3 :: rest3 => isCont c3 && utf8Valid rest3
    else false

/-- `TerminalPane._handle_output`'s decode step: the code runs
`data.decode("utf-8", errors="ignore")` inside a
`try/except UnicodeDecodeError` whose `latin-1` fallback is unreachable,
because `errors="ignore"` never raises `UnicodeDecodeError`.  The text
fed to the screen model is therefore the ignore-mode UTF-8 decode. -/
def handleOutputText (data : Bytes) : PyStr := utf8DecodeIgnore data

/-- The decode step the spec describes (for comparison with
`handleOutputText`): decode as UTF-8 and, when that fails, fall back to
a single-byte-per-character (`latin-1`) decoding. -/
def specDecodeWithFallback (data : Bytes) : PyStr :=
  if utf8Valid data then utf8DecodeIgnore data else latin1Decode data

/- ================================================================
   terminal_widget.py : color normalization (_normalize_color)
   ================================================================ -/

/-- A value `_normalize_color` receives from a pyte cell (and may also
return): `None`, an integer palette index, or a color-name / hex string. -/
inductive PyColor where
  | pynone
  | pyint (n : Int)
  | pystring (s : PyStr)
deriving DecidableEq, Repr

/-- The explicit alias table of `_normalize_color`. -/
def colorAliases : List (PyStr × PyStr) :=
  [ (pstr "brightblack", pstr "bright_black"),
    (pstr "brightred", pstr "bright_red"),
    (pstr "brightgreen", pstr "bright_green"),
    (pstr "brightbrown", pstr "bright_yellow"),
    (pstr "brightblue", pstr "bright_blue"),
    (pstr "brightmagenta", pstr "bright_magenta"),
    (pstr "brightcyan", pstr "bright_cyan"),
    (pstr "brightwhite", pstr "bright_white"),
    (pstr "brown", pstr "yellow"),
    (pstr "bfightmagenta", pstr "bright_magenta") ]

/-- Membership in Python's check `c in "0123456789abcdefABCDEF"`. -/
def isHexChar (c : Char) : Bool := (pstr "0123456789abcdefABCDEF").contains c

/-- The string portion of `_normalize_color` (after the `None`/`default`
and `isinstance(value, int)` branches). -/
def normalizeColorStr (s : PyStr) : PyStr :=
  match assocFind colorAliases s with
  | some r => r
  | none =>
    if s.length = 6 && s.all isHexChar then pstr "#" ++ s.map Char.toLower
    else if (pstr "bright").isPrefixOf s && !s.contains '_' then
      pstr "bright_" ++ s.drop 6
    else s

/-- `TerminalPane._normalize_color`. -/
def normalizeColor (v : PyColor) : PyColor :=
  if v = .pynone || v = .pystring (pstr "default") then .pynone
  else
    match v with
    | .pyint n => .pystring (pstr "color(" ++ intDecimal n ++ pstr ")")
    | .pystring s => .pystring (normalizeColorStr s)
    | .pynone => .pynone

/- ================================================================
   terminal_widget.py : resize paths (_resize, _sync_dimensions)
   ================================================================ -/

/-- The dimensions held by the pyte screen (`_screen.columns`,
`_screen.lines`). -/
structure ScreenModel where
  columns : Nat
  lines : Nat
deriving DecidableEq, Repr

/-- The size fields and fd of a live `PTYProcess`, as touched by
`PTYProcess.resize`. -/
structure PtyProcModel where
  rows : Nat
  cols : Nat
  fd : Option Nat
deriving DecidableEq, Repr

/-- Externally visible effects of the resize paths. -/
inductive ResizeEffect where
  | screenResize (rows cols : Nat)
  | procResize (rows cols : Nat)
  | winsizeIoctl (rows cols : Nat)
  | displayUpdate
deriving DecidableEq, Repr

/-- `pty_process._set_winsize`: no-op without an fd or with a
non-positive dimension, otherwise the `TIOCSWINSZ` ioctl. -/
def setWinsize (fd : Option Nat) (rows cols : Nat) : List ResizeEffect :=
  match fd with
  | none => []
  | some _ => if rows = 0 || cols = 0 then [] else [.winsizeIoctl rows cols]

/-- `PTYProcess.resize`: store the new size, then apply the window-size
ioctl when an fd is present. -/
def ptyResize (p : PtyProcModel) (rows cols : Nat) :
    PtyProcModel × List ResizeEffect :=
  ({ p with rows := rows, cols := cols }, setWinsize p.fd rows cols)

/-- `TerminalPane._resize`: the screen model is resized only when the
dimensions changed, but an active process is always resized; the
display is refreshed only when the screen dimensions changed. -/
def paneResize (screen : ScreenModel) (proc : Option PtyProcModel)
    (cols rows : Nat) :
    ScreenModel × Option PtyProcModel × List ResizeEffect :=
  let changed := cols ≠ screen.columns ∨ rows ≠ screen.lines
  let screenStep : ScreenModel × List ResizeEffect :=
    if changed then ({ columns := cols, lines := rows }, [.screenResize rows cols])
    else (screen, [])
  let procStep : Option PtyProcModel × List ResizeEffect :=
    match proc with
    | some p =>
      let (p1, ioctlEffs) := ptyResize p rows cols
      (some p1, .procResize rows cols :: ioctlEffs)
    | none => (none, [])
  let displayStep : List ResizeEffect := if changed then [.displayUpdate] else []
  (screenStep.1, procStep.1, screenStep.2 ++ procStep.2 ++ displayStep)

/-- `TerminalPane._current_dimensions`: clamp the widget size to at
least 10 columns and 5 rows. -/
def currentDimensions (width height : Nat) : Nat × Nat :=
  (max 10 width, max 5 height)

/-- `TerminalPane._sync_dimensions`: the periodic tick reads the current
dimensions and hands them to `_resize` unconditionally. -/
def syncDimensions (screen : ScreenModel) (proc : Option PtyProcModel)
    (width height : Nat) :
    ScreenModel × Option PtyProcModel × List ResizeEffect :=
  let dims := currentDimensions width height
  paneResize screen proc dims.1 dims.2

/- ================================================================
   terminal_widget.py : session lifecycle (start / stop / _handle_exit)
   ================================================================ -/

/-- The pid/fd pair owned by one `PTYProcess` instance. -/
structure PtyHandle where
  pid : Option Nat
  fd : Option Nat
deriving DecidableEq, Repr

/-- The lifecycle-relevant state of a `TerminalPane`: its at most one
active process. -/
structure PaneSession where
  process : Option PtyHandle
deriving DecidableEq, Repr

/-- Observable steps of the start/stop sequence, in program order. -/
inductive LifeAct where
  | lockAcquire
  | sigterm (pid : Nat)
  | reap (pid : Nat)
  | resetScreen (cols rows : Nat)
  | forkSpawn (pid : Nat)
  | lockRelease
deriving DecidableEq, Repr

/-- `PTYProcess._terminate_blocking`: signal, reap, clear the pid
(`ProcessLookupError` / `ChildProcessError` are swallowed but the kill
and waitpid calls are still issued). -/
def terminateBlocking (p : PtyHandle) : PtyHandle × List LifeAct :=
  match p.pid with
  | none => (p, [])
  | some pid => ({ p with pid := none }, [.sigterm pid, .reap pid])

/-- `TerminalPane.stop`: no-op when idle; otherwise clear the process
reference and await its termination (signal + blocking reap). -/
def stopPane (st : PaneSession) : PaneSession × List LifeAct :=
  match st.process with
  | none => (st, [])
  | some p => ({ process := none }, (terminateBlocking p).2)

/-- The parent's view of `PTYProcess._fork` (`pty.fork()` followed by
`os.execvp` in the child): the parent raises only when the fork itself
fails.  `os.execvp` runs in the forked child after `pty.fork` has
already returned `(pid, fd)` to the parent, so whether the executable
can be located (`execFound`) cannot influence the parent's result; a
missing executable only makes the child die immediately. -/
def forkParentView (forkRaises execFound : Bool) (newPid newFd : Nat) :
    Except Unit (Nat × Nat) :=
  if forkRaises then .error () else .ok (newPid, newFd)

/-- How `TerminalPane.start` finishes: normally, or with the
`ValueError` for a missing command, or with the OS error escaping a
failed fork. -/
inductive StartError where
  | noCommand
  | spawnOsError
deriving DecidableEq, Repr

/-- `TerminalPane.start` with the command already resolved against the
default: guard against an empty command, then under the exclusive
`_open_lock` stop any running session, build a fresh screen model, and
spawn the new process.  Returns the final state, the error (if any), and
the ordered trace of observable steps. -/
def startPane (st : PaneSession) (command : List PyStr) (cols rows : Nat)
    (forkRaises execFound : Bool) (newPid newFd : Nat) :
    PaneSession × Option StartError × List LifeAct :=
  if command.isEmpty then (st, some .noCommand, [])
  else
    let (st1, stopActs) := stopPane st
    match forkParentView forkRaises execFound newPid newFd with
    | .error _ =>
      (st1, some .spawnOsError,
        [.lockAcquire] ++ stopActs ++ [.resetScreen cols rows] ++ [.lockRelease])
    | .ok (pid, fd) =>
      ({ process := some { pid := some pid, fd := some fd } }, none,
        [.lockAcquire] ++ stopActs ++
          [.resetScreen cols rows, .forkSpawn pid] ++ [.lockRelease])

/-- The `TerminalExited` message posted by `_handle_exit`. -/
structure ExitMsg where
  returncode : Option Int
deriving DecidableEq, Repr

/-- `TerminalPane._handle_exit`: clear the active process and post the
exit notification carrying the classification unchanged. -/
def handleExit (rc : Option Int) (st : PaneSession) : PaneSession × ExitMsg :=
  ({ process := none }, { returncode := rc })

/- ================================================================
   Theorems
   ================================================================ -/

/-- C7: a left-button press at (col=5, row=10) with no modifiers yields
the SGR bytes of `ESC[<0;6;11M` and the legacy bytes
`ESC[M` ++ `[32, 38, 43]`; the left button maps to code 0. -/
theorem mouse_press_5_10_reports :
    buttonCode (.name (pstr "left")) = 0 ∧
    sendMouse 5 10 (buttonCode (.name (pstr "left"))) true
        ⟨false, false, false⟩ =
      ([27, 91, 60, 48, 59, 54, 59, 49, 49, 77],
        some [27, 91, 77, 32, 38, 43]) := by
  constructor
  · rfl
  · rfl

/-- C9: the exit classification is a non-negative code exactly when the
process exited normally and minus the terminating signal exactly when it
was killed by a signal; both the polling and the blocking wait paths
return this classification, and `_handle_exit` delivers it unchanged in
the `TerminalExited` notification. -/
theorem exit_classification_end_to_end :
    ∀ (status pid : Nat) (st : PaneSession) (rc : Option Int),
      ((∃ c, classifyStatus status = some c ∧ 0 ≤ c) ↔ wifexited status) ∧
      ((∃ c, classifyStatus status = some c ∧ c < 0) ↔ wifsignaled status) ∧
      (wifexited status → classifyStatus status = some (wexitstatus status)) ∧
      (wifsignaled status →
        classifyStatus status = some (-(wtermsig status : Int)) ∧
        1 ≤ wtermsig status) ∧
      pollExitStatus (some pid) (.reaped status) = classifyStatus status ∧
      waitBlocking (some pid) (.reaped status) = classifyStatus status ∧
      (handleExit rc st).2.returncode = rc := by
  intro status pid st rc
  have hdisj : ¬ (wifexited status ∧ wifsignaled status) := by
    unfold wifexited wifsignaled
    omega
  refine ⟨?_, ?_, ?_, ?_, rfl, rfl, rfl⟩
  · constructor
    · rintro ⟨c, hc, hge⟩
      unfold classifyStatus at hc
      split at hc
      · assumption
      · split at hc
        · have hsig : 1 ≤ wtermsig status := by
            unfold wtermsig
            unfold wifsignaled at *
            omega
          cases hc
          omega
        · exact absurd hc (by simp)
    · intro hex
      refine ⟨wexitstatus status, ?_, by positivity⟩
      unfold classifyStatus
      simp [hex]
  · constructor
    · rintro ⟨c, hc, hlt⟩
      unfold classifyStatus at hc
      split at hc
      · cases hc
        omega
      · split at hc
        · assumption
        · exact absurd hc (by simp)
    · intro hsig
      have hex : ¬ wifexited status := fun h => hdisj ⟨h, hsig⟩
      refine ⟨-(wtermsig status : Int), ?_, ?_⟩
      · unfold classifyStatus
        simp [hex, hsig]
      · unfold wtermsig
        unfold wifsignaled at hsig
        omega
  · intro hex
    unfold classifyStatus
    simp [hex]
  · intro hsig
    have hex : ¬ wifexited status := fun h => hdisj ⟨h, hsig⟩
    constructor
    · unfold classifyStatus
      simp [hex, hsig]
    · unfold wtermsig
      unfold wifsignaled at hsig
      omega

/-- Closed witness for the exit-classification theorem: status 15 is a
SIGTERM death classified as -15, status 256 a normal exit with code 1,
and the notification carries the value unchanged. -/
theorem exit_classification_end_to_end_witness :
    classifyStatus 15 = some (-15) ∧ classifyStatus 256 = some 1 ∧
    (handleExit (some (-15)) ⟨none⟩).2.returncode = some (-15) := by
  have h15 := exit_classification_end_to_end 15 1 ⟨none⟩ (some (-15))
  have h256 := exit_classification_end_to_end 256 1 ⟨none⟩ (some 1)
  refine ⟨?_, ?_, h15.2.2.2.2.2.2⟩
  · have := (h15.2.2.2.1 (by decide)).1
    simpa [wtermsig, wstatusLow] using this
  · have := h256.2.2.1 (by decide)
    simpa [wexitstatus] using this

/-- With the fd already cleared, the reader callback does nothing. -/
theorem onData_noFd (st : PtyState) (ev : ReadEvent) (poll : PollOutcome)
    (h : st.fd = none) : onData st ev poll = (st, []) := by
  simp [onData, h]

/-- With the fd already cleared, a whole sequence of readiness events
does nothing. -/
theorem runReads_noFd (evs : List (ReadEvent × PollOutcome)) (st : PtyState)
    (h : st.fd = none) : runReads st evs = (st, []) := by
  induction evs with
  | nil => rfl
  | cons e rest ih =>
    obtain ⟨ev, poll⟩ := e
    simp [runReads, onData_noFd st ev poll h, ih]

/-- A non-empty chunk is delivered and leaves the reader state alone. -/
theorem onData_deliver (st : PtyState) (f : Nat) (d : Bytes)
    (poll : PollOutcome) (hfd : st.fd = some f) (hr : st.hasReadCb = true)
    (hd : d ≠ []) : onData st (.chunk d) poll = (st, [.deliver d]) := by
  simp [onData, hfd, hr, hd]

/-- An EOF (empty read) or read error unregisters the reader, closes the
fd, clears it, and fires one exit notification. -/
theorem onData_ending (st : PtyState) (f : Nat) (ev : ReadEvent)
    (poll : PollOutcome) (hfd : st.fd = some f) (hl : st.hasLoop = true)
    (hr : st.hasReadCb = true) (he : st.hasExitCb = true)
    (hend : isEnding ev = true) :
    onData st ev poll =
      ({ st with fd := none },
        [.removeReader f, .closeFd f,
          .exitNotify (pollExitStatus st.pid poll)]) := by
  cases ev with
  | chunk d =>
    have hd : d = [] := by simpa [isEnding] using hend
    subst hd
    simp [onData, cleanupReader, hfd, hl, hr, he]
  | readError =>
    simp [onData, cleanupReader, hfd, hl, hr, he]

/-- C2: over any sequence of readiness notifications on a live reader, a
zero-length read or a read error (treated identically) produces exactly
one exit notification and exactly one close of the descriptor — one of
each when some ending event occurs, none otherwise, no matter how many
readiness events follow the EOF. -/
theorem eof_single_close_single_exit :
    ∀ (evs : List (ReadEvent × PollOutcome)) (st : PtyState) (f : Nat),
      st.fd = some f → st.hasLoop = true → st.hasReadCb = true →
      st.hasExitCb = true →
      (countCloses (runReads st evs).2 =
        (if evs.any fun p => isEnding p.1 then 1 else 0)) ∧
      (countExits (runReads st evs).2 =
        (if evs.any fun p => isEnding p.1 then 1 else 0)) ∧
      (∀ poll, onData st .readError poll = onData st (.chunk []) poll) := by
  intro evs st f hfd hl hr he
  refine ⟨?_, ?_, fun poll => rfl⟩ <;>
  · induction evs with
    | nil => simp [runReads, countCloses, countExits]
    | cons e rest ih =>
      obtain ⟨ev, poll⟩ := e
      by_cases hend : isEnding ev = true
      · rw [runReads]
        rw [onData_ending st f ev poll hfd hl hr he hend]
        simp [runReads_noFd rest { st with fd := none } rfl,
          countCloses, countExits, hend]
      · cases ev with
        | chunk d =>
          have hd : d ≠ [] := by
            intro hnil
            exact hend (by simp [hnil, isEnding])
          have hendf : isEnding (ReadEvent.chunk d) = false := by
            simpa using hend
          rw [runReads]
          rw [onData_deliver st f d poll hfd hr hd]
          simp only [List.any_cons, hendf, Bool.false_or]
          simpa [countCloses, countExits] using ih
        | readError => exact absurd rfl hend

/-- Closed witness: data, then EOF, then two further readiness events
(a late error and a late read) yield exactly one close and one exit
notification. -/
theorem eof_single_close_single_exit_witness :
    countCloses (runReads ⟨some 3, true, true, true, some 7⟩
      [(.chunk [65], .reaped 0), (.chunk [], .reaped 0),
       (.readError, .reaped 0), (.chunk [66], .reaped 0)]).2 = 1 ∧
    countExits (runReads ⟨some 3, true, true, true, some 7⟩
      [(.chunk [65], .reaped 0), (.chunk [], .reaped 0),
       (.readError, .reaped 0), (.chunk [66], .reaped 0)]).2 = 1 := by
  have h := eof_single_close_single_exit
    [(.chunk [65], .reaped 0), (.chunk [], .reaped 0),
     (.readError, .reaped 0), (.chunk [66], .reaped 0)]
    ⟨some 3, true, true, true, some 7⟩ 3 rfl rfl rfl rfl
  exact ⟨h.1.trans (by decide), h.2.1.trans (by decide)⟩

/-- After `stop()` the pane never holds a process reference, whether or
not one was running. -/
theorem stopPane_clears_process (st : PaneSession) :
    (stopPane st).1.process = none := by
  cases h : st.process <;> simp [stopPane, h]

/-- C1: starting while a session is running performs, inside the
exclusive lock, the old process's termination and reap strictly before
the new fork, and leaves exactly the new process active — so at most one
session is ever attached. -/
theorem start_stops_old_before_spawn :
    ∀ (st : PaneSession) (p : PtyHandle) (oldPid : Nat) (command : List PyStr)
      (cols rows : Nat) (execFound : Bool) (newPid newFd : Nat),
      st.process = some p → p.pid = some oldPid → command ≠ [] →
      startPane st command cols rows false execFound newPid newFd =
        ({ process := some { pid := some newPid, fd := some newFd } }, none,
          [.lockAcquire, .sigterm oldPid, .reap oldPid,
            .resetScreen cols rows, .forkSpawn newPid, .lockRelease]) ∧
      ∃ i j : Nat, i < j ∧
        ((startPane st command cols rows false execFound newPid newFd).2.2.get? i =
          some (.reap oldPid)) ∧
        ((startPane st command cols rows false execFound newPid newFd).2.2.get? j =
          some (.forkSpawn newPid)) := by
  intro st p oldPid command cols rows execFound newPid newFd hst hpid hcmd
  have hec : command.isEmpty = false := by
    simpa [List.isEmpty_iff] using hcmd
  have heq : startPane st command cols rows false execFound newPid newFd =
      ({ process := some { pid := some newPid, fd := some newFd } }, none,
        [.lockAcquire, .sigterm oldPid, .reap oldPid,
          .resetScreen cols rows, .forkSpawn newPid, .lockRelease]) := by
    simp [startPane, stopPane, terminateBlocking, forkParentView, hec, hst, hpid]
  refine ⟨heq, 2, 4, by omega, ?_, ?_⟩ <;> rw [heq] <;> rfl

/-- Closed witness: a pane running pid 5 restarted with a new command
forks pid 6 only after signalling and reaping pid 5, under the lock. -/
theorem start_stops_old_before_spawn_witness :
    startPane ⟨some ⟨some 5, some 9⟩⟩ [pstr "sh"] 80 24 false true 6 10 =
      (⟨some ⟨some 6, some 10⟩⟩, none,
        [.lockAcquire, .sigterm 5, .reap 5, .resetScreen 80 24,
          .forkSpawn 6, .lockRelease]) :=
  (start_stops_old_before_spawn ⟨some ⟨some 5, some 9⟩⟩ ⟨some 5, some 9⟩ 5
    [pstr "sh"] 80 24 true 6 10 rfl rfl (by decide)).1

/-- C5 counterexample: with the executable missing but the fork itself
succeeding (which is what `pty.fork` + `os.execvp` gives the parent),
`start` reports no error at all and records an active process — the
session does not remain idle and no `SpawnError` reaches the caller. -/
theorem missing_executable_start_succeeds :
    (startPane ⟨none⟩ [pstr "definitely-missing-binary"] 80 24
        false false 42 3).2.1 = none ∧
    (startPane ⟨none⟩ [pstr "definitely-missing-binary"] 80 24
        false false 42 3).1.process = some ⟨some 42, some 3⟩ := by
  constructor <;> rfl

/-- C5 (amended): only a failure of the fork itself surfaces to the
caller of `start()` and leaves the session idle; a successful fork —
whether or not the executable can be located — reports no error and
records the new process. -/
theorem spawn_failure_paths :
    ∀ (st : PaneSession) (command : List PyStr) (cols rows : Nat)
      (execFound : Bool) (newPid newFd : Nat),
      command ≠ [] →
      ((startPane st command cols rows true execFound newPid newFd).2.1 =
          some .spawnOsError ∧
        (startPane st command cols rows true execFound newPid newFd).1.process =
          none) ∧
      ((startPane st command cols rows false execFound newPid newFd).2.1 =
          none ∧
        (startPane st command cols rows false execFound newPid newFd).1.process =
          some ⟨some newPid, some newFd⟩) := by
  intro st command cols rows execFound newPid newFd hcmd
  have hec : command.isEmpty = false := by
    simpa [List.isEmpty_iff] using hcmd
  refine ⟨⟨?_, ?_⟩, ?_, ?_⟩ <;>
    simp [startPane, forkParentView, hec, stopPane_clears_process]

/-- Closed witness for the fork-failure path: the OS error propagates
and the session is idle; the successful-fork path records pid 42. -/
theorem spawn_failure_paths_witness :
    (startPane ⟨none⟩ [pstr "sh"] 80 24 true true 42 3).2.1 =
        some .spawnOsError ∧
    (startPane ⟨none⟩ [pstr "sh"] 80 24 true true 42 3).1.process = none ∧
    (startPane ⟨none⟩ [pstr "sh"] 80 24 false true 42 3).1.process =
        some ⟨some 42, some 3⟩ := by
  have h := spawn_failure_paths ⟨none⟩ [pstr "sh"] 80 24 true 42 3 (by decide)
  exact ⟨h.1.1, h.1.2, h.2.2⟩

/-- C8 counterexample: resizing a pane to its current 80×24 with a
process attached still invokes the process resize and its window-size
ioctl — the redundant resize is not applied "to neither the screen model
nor the Session". -/
theorem redundant_resize_still_hits_process :
    (paneResize ⟨80, 24⟩ (some ⟨24, 80, some 5⟩) 80 24).2.2 =
        [.procResize 24 80, .winsizeIoctl 24 80] ∧
    ResizeEffect.procResize 24 80 ∈
      (paneResize ⟨80, 24⟩ (some ⟨24, 80, some 5⟩) 80 24).2.2 := by
  constructor <;> decide

/-- C8 (amended): a resize request equal to the screen model's current
dimensions leaves the screen model untouched and triggers no display
update, and with no process attached has no effect at all; but when a
process is attached, the process resize (with its window-size ioctl) is
still issued, with the unchanged values. -/
theorem redundant_resize_skips_screen_only :
    ∀ (screen : ScreenModel) (proc : Option PtyProcModel) (cols rows : Nat),
      cols = screen.columns → rows = screen.lines →
      ((paneResize screen proc cols rows).1 = screen ∧
        (∀ r c, ResizeEffect.screenResize r c ∉
          (paneResize screen proc cols rows).2.2) ∧
        ResizeEffect.displayUpdate ∉ (paneResize screen proc cols rows).2.2) ∧
      (proc = none → (paneResize screen proc cols rows).2.2 = []) ∧
      (∀ p, proc = some p →
        (paneResize screen proc cols rows).2.2 =
          .procResize rows cols :: setWinsize p.fd rows cols ∧
        (paneResize screen proc cols rows).2.1 =
          some { p with rows := rows, cols := cols }) := by
  intro screen proc cols rows hc hr
  subst hc
  subst hr
  have hsw : ∀ (fd : Option Nat) (a b : Nat) (e : ResizeEffect),
      e ∈ setWinsize fd a b → ∃ a2 b2, e = .winsizeIoctl a2 b2 := by
    intro fd a b e h
    cases fd with
    | none => simp [setWinsize] at h
    | some f =>
      simp only [setWinsize] at h
      split at h
      · simp at h
      · simp at h
        exact ⟨a, b, h⟩
  refine ⟨⟨?_, ?_, ?_⟩, ?_, ?_⟩
  · cases proc <;> simp [paneResize]
  · intro r c
    rcases proc with _ | p
    · simp [paneResize]
    · simp only [paneResize, ptyResize]
      simp
      intro h
      obtain ⟨a2, b2, he⟩ := hsw p.fd _ _ _ h
      simp at he
  · rcases proc with _ | p
    · simp [paneResize]
    · simp only [paneResize, ptyResize]
      simp
      intro h
      obtain ⟨a2, b2, he⟩ := hsw p.fd _ _ _ h
      simp at he
  · intro hp
    subst hp
    simp [paneResize]
  · intro p hp
    subst hp
    simp [paneResize, ptyResize]

/-- Closed witness: at the current size 80×24 with an attached process
on fd 5, the screen model and effects behave as stated. -/
theorem redundant_resize_skips_screen_only_witness :
    (paneResize ⟨80, 24⟩ (some ⟨24, 80, some 5⟩) 80 24).1 = ⟨80, 24⟩ ∧
    ResizeEffect.displayUpdate ∉
      (paneResize ⟨80, 24⟩ (some ⟨24, 80, some 5⟩) 80 24).2.2 ∧
    (paneResize ⟨80, 24⟩ (some ⟨24, 80, some 5⟩) 80 24).2.2 =
      .procResize 24 80 :: setWinsize (some 5) 24 80 := by
  have h := redundant_resize_skips_screen_only ⟨80, 24⟩
    (some ⟨24, 80, some 5⟩) 80 24 rfl rfl
  exact ⟨h.1.1, h.1.2.2, (h.2.2 ⟨24, 80, some 5⟩ rfl).1⟩

/-- C3 counterexample: a left press at 1-based column 224 — inside the
claimed clamp-to-255 range — produces no legacy report at all:
`min(224, 255) + 32 = 256` exceeds one byte, the `bytes([...])` call
raises `ValueError`, and the handler returns `None`, so a legacy report
is not produced for every press. -/
theorem legacy_report_missing_at_col224 :
    encodeX10 0 224 11 true ⟨false, false, false⟩ = none ∧
    (sendMouse 223 10 0 true ⟨false, false, false⟩).2 = none := by
  constructor <;> rfl

/-- C3 (amended): the legacy report is `ESC [ M`, button+32, col+32,
row+32 with col/row clamped to 255 — but it is only emitted when every
payload value fits in one byte (clamped col/row at most 223 and button
value at most 223); for any larger column or row the `bytes`
construction fails and no legacy report is emitted. -/
theorem legacy_report_clamped_range :
    ∀ (bc col row : Int) (pressed : Bool) (m : Modifiers),
      0 ≤ bc →
      (0 ≤ legacyButtonOf bc pressed m → legacyButtonOf bc pressed m ≤ 223 →
        0 ≤ col → col ≤ 223 → 0 ≤ row → row ≤ 223 →
        encodeX10 bc col row pressed m =
          some [27, 91, 77, (legacyButtonOf bc pressed m + 32).toNat,
            (col + 32).toNat, (row + 32).toNat]) ∧
      (224 ≤ col → encodeX10 bc col row pressed m = none) ∧
      (224 ≤ row → encodeX10 bc col row pressed m = none) := by
  intro bc col row pressed m hbc
  refine ⟨?_, ?_, ?_⟩
  · intro hlb0 hlb hc0 hc hr0 hr
    have hmc : min col 255 = col := by omega
    have hmr : min row 255 = row := by omega
    simp only [encodeX10, bytesOfInts, hmc, hmr]
    rw [if_neg (by omega), if_pos]
    · simp
    · simp only [List.all_cons, List.all_nil, decide_eq_true_eq,
        Bool.and_eq_true]
      refine ⟨⟨by omega, by omega⟩, ⟨by omega, by omega⟩, ⟨by omega, by omega⟩,
        ⟨by omega, by omega⟩, ⟨by omega, by omega⟩, ⟨by omega, by omega⟩, trivial⟩
  · intro hc
    simp only [encodeX10, bytesOfInts]
    rw [if_neg (by omega), if_neg]
    simp only [List.all_cons, List.all_nil, decide_eq_true_eq,
      Bool.and_eq_true]
    intro h
    omega
  · intro hr
    simp only [encodeX10, bytesOfInts]
    rw [if_neg (by omega), if_neg]
    simp only [List.all_cons, List.all_nil, decide_eq_true_eq,
      Bool.and_eq_true]
    intro h
    omega

/-- Closed witness: a plain left press at (col=6, row=11) is encoded,
and a press at column 300 is not. -/
theorem legacy_report_clamped_range_witness :
    encodeX10 0 6 11 true ⟨false, false, false⟩ =
        some [27, 91, 77, 32, 38, 43] ∧
    encodeX10 0 300 11 true ⟨false, false, false⟩ = none := by
  have h := legacy_report_clamped_range 0 6 11 true ⟨false, false, false⟩
    (by decide)
  have h2 := legacy_report_clamped_range 0 300 11 true ⟨false, false, false⟩
    (by decide)
  constructor
  · have := h.1 (by decide) (by decide) (by decide) (by decide) (by decide)
      (by decide)
    exact this.trans (by decide)
  · exact h2.2.1 (by decide)

/-- The empty byte string decodes to the empty string. -/
theorem utf8DecodeIgnore_nil : utf8DecodeIgnore [] = [] := by
  rw [utf8DecodeIgnore.eq_def]

/-- An ASCII byte decodes to itself and decoding continues behind it. -/
theorem utf8DecodeIgnore_ascii_cons (b : Nat) (rest : Bytes) (h : b < 128) :
    utf8DecodeIgnore (b :: rest) = Char.ofNat b :: utf8DecodeIgnore rest := by
  rw [utf8DecodeIgnore.eq_def]
  simp [h]

/-- The byte `0xFF` can never start a UTF-8 sequence; `errors="ignore"`
skips it without contributing anything. -/
theorem utf8DecodeIgnore_ff (rest : Bytes) :
    utf8DecodeIgnore (255 :: rest) = utf8DecodeIgnore rest := by
  rw [utf8DecodeIgnore.eq_def]
  norm_num

/-- Ignore-mode decoding commutes with splitting off an all-ASCII
prefix. -/
theorem utf8DecodeIgnore_ascii_append (a rest : Bytes)
    (h : ∀ x ∈ a, x < 128) :
    utf8DecodeIgnore (a ++ rest) = a.map Char.ofNat ++ utf8DecodeIgnore rest := by
  induction a with
  | nil => simp
  | cons b t ih =>
    have hb : b < 128 := h b (by simp)
    have ht : ∀ x ∈ t, x < 128 := fun x hx => h x (by simp [hx])
    simp [List.cons_append, utf8DecodeIgnore_ascii_cons b _ hb, ih ht]

/-- An all-ASCII byte string decodes to its code points unchanged. -/
theorem utf8DecodeIgnore_ascii (a : Bytes) (h : ∀ x ∈ a, x < 128) :
    utf8DecodeIgnore a = a.map Char.ofNat := by
  have := utf8DecodeIgnore_ascii_append a [] h
  simpa [utf8DecodeIgnore_nil] using this

/-- C4 counterexample: on `b"A\xffB"` the code's `errors="ignore"`
decode silently drops the undecodable byte (yielding `"AB"`), whereas
the claimed single-byte fallback would keep it as U+00FF — the fallback
never runs and nothing is degraded to a replacement. -/
theorem invalid_byte_dropped_not_replaced :
    handleOutputText [65, 255, 66] = [Char.ofNat 65, Char.ofNat 66] ∧
    specDecodeWithFallback [65, 255, 66] =
      [Char.ofNat 65, Char.ofNat 255, Char.ofNat 66] ∧
    handleOutputText [65, 255, 66] ≠ specDecodeWithFallback [65, 255, 66] := by
  have e1 : handleOutputText [65, 255, 66] = [Char.ofNat 65, Char.ofNat 66] := by
    rw [handleOutputText, utf8DecodeIgnore_ascii_cons 65 _ (by norm_num),
      utf8DecodeIgnore_ff, utf8DecodeIgnore_ascii_cons 66 _ (by norm_num),
      utf8DecodeIgnore_nil]
  have e2 : specDecodeWithFallback [65, 255, 66] =
      [Char.ofNat 65, Char.ofNat 255, Char.ofNat 66] := by
    rw [specDecodeWithFallback]
    decide
  refine ⟨e1, e2, ?_⟩
  rw [e1, e2]
  decide

/-- C4 (amended): the decode step never raises (it is total), but a
malformed byte is silently dropped rather than replaced; the valid
content surrounding the malformed chunk is preserved. -/
theorem decode_total_preserves_surrounding :
    ∀ (a b : Bytes), (∀ x ∈ a, x < 128) → (∀ x ∈ b, x < 128) →
      handleOutputText (a ++ 255 :: b) =
        a.map Char.ofNat ++ b.map Char.ofNat ∧
      handleOutputText (a ++ b) = a.map Char.ofNat ++ b.map Char.ofNat := by
  intro a b ha hb
  constructor
  · rw [handleOutputText, utf8DecodeIgnore_ascii_append a _ ha,
      utf8DecodeIgnore_ff, utf8DecodeIgnore_ascii b hb]
  · rw [handleOutputText, utf8DecodeIgnore_ascii_append a _ ha,
      utf8DecodeIgnore_ascii b hb]

/-- Closed witness: `"H" ++ bad byte ++ "i"` decodes to `"Hi"`. -/
theorem decode_total_preserves_surrounding_witness :
    handleOutputText [72, 255, 105] = [Char.ofNat 72, Char.ofNat 105] := by
  have h := decode_total_preserves_surrounding [72] [105]
    (by intro x hx; simp at hx; omega) (by intro x hx; simp at hx; omega)
  simpa using h.1

/-- C6: Ctrl with a letter a–z yields the single control byte
`ord(upper) & 0x1F`, the punctuation/space suffixes have their explicit
special-case bytes, and key translation tries the named-key table first,
then Ctrl-modified forms, then the literal character as UTF-8 — first
match wins. -/
theorem ctrl_encoding_and_lookup_order :
    (∀ c : Char, 97 ≤ c.toNat → c.toNat ≤ 122 →
      ctrlSequence [c] = some [c.toUpper.toNat &&& 0x1F]) ∧
    (ctrlSequence (pstr "@") = some [0x00] ∧
      ctrlSequence (pstr "[") = some [0x1B] ∧
      ctrlSequence (pstr "\\") = some [0x1C] ∧
      ctrlSequence (pstr "]") = some [0x1D] ∧
      ctrlSequence (pstr "^") = some [0x1E] ∧
      ctrlSequence (pstr "_") = some [0x1F] ∧
      ctrlSequence (pstr "?") = some [0x7F] ∧
      ctrlSequence (pstr "space") = some [0x00]) ∧
    (∀ (cands : List PyStr) (ch : Option PyStr) (b : Bytes),
      (findNamed cands = some b → translateKey cands ch = some b) ∧
      (findNamed cands = none → findCtrl cands = some b →
        translateKey cands ch = some b) ∧
      (findNamed cands = none → findCtrl cands = none →
        translateKey cands ch =
          match ch with
          | some s => if s.isEmpty then none else some (utf8Encode s)
          | none => none)) := by
  refine ⟨?_, by decide, ?_⟩
  · intro c h1 h2
    have hne : ∀ k : Char, k.toNat < 97 → c ≠ k := by
      intro k hk he
      subst he
      omega
    have hfind : assocFind ctrlSpecial [c] = none := by
      have e : ctrlSpecial =
          [ (['s', 'p', 'a', 'c', 'e'], [0x00]), (['@'], [0x00]),
            (['['], [0x1b]), (['\\'], [0x1c]), ([']'], [0x1d]),
            (['^'], [0x1e]), (['_'], [0x1f]), (['?'], [0x7f]) ] := rfl
      rw [e]
      simp only [assocFind]
      rw [if_neg (by simp),
        if_neg (by simpa using hne '@' (by decide)),
        if_neg (by simpa using hne '[' (by decide)),
        if_neg (by simpa using hne '\\' (by decide)),
        if_neg (by simpa using hne ']' (by decide)),
        if_neg (by simpa using hne '^' (by decide)),
        if_neg (by simpa using hne '_' (by decide)),
        if_neg (by simpa using hne '?' (by decide))]
    simp [ctrlSequence, hfind]
  · intro cands ch b
    refine ⟨?_, ?_, ?_⟩
    · intro h
      simp [translateKey, h]
    · intro h1 h2
      simp [translateKey, h1, h2]
    · intro h1 h2
      simp [translateKey, h1, h2]

/-- Closed witness: Ctrl+q gives 0x11; a named key beats a literal
character; the Ctrl path fires when no named key matches; the literal
character is used last. -/
theorem ctrl_encoding_and_lookup_order_witness :
    ctrlSequence [Char.ofNat 113] = some [17] ∧
    translateKey [pstr "enter"] (some (pstr "x")) = some [10] ∧
    translateKey [pstr "ctrl+q"] none = some [17] ∧
    translateKey [pstr "q"] (some (pstr "q")) = some [113] := by
  have h := ctrl_encoding_and_lookup_order
  refine ⟨?_, ?_, ?_, ?_⟩
  · exact (h.1 (Char.ofNat 113) (by decide) (by decide)).trans (by decide)
  · exact (h.2.2 [pstr "enter"] (some (pstr "x")) [10]).1 (by decide)
  · exact (h.2.2 [pstr "ctrl+q"] none [17]).2.1 (by decide) (by decide)
  · exact ((h.2.2 [pstr "q"] (some (pstr "q")) []).2.2 (by decide)
      (by decide)).trans (by decide)


set_option maxHeartbeats 1000000 in
/-- Every value of the alias table is itself a fixed point of the string
normalization and is not the sentinel `"default"`. -/
theorem alias_out_stable (s out : PyStr)
    (h : assocFind colorAliases s = some out) :
    normalizeColorStr out = out ∧ out ≠ pstr "default" := by
  simp only [colorAliases, assocFind] at h
  split_ifs at h <;> (cases h; decide)

/-- The string portion of `_normalize_color` is stable: one application
reaches a fixed point, and never produces the sentinel `"default"`. -/
theorem normalizeColorStr_stable (s : PyStr) (hd : s ≠ pstr "default") :
    normalizeColorStr (normalizeColorStr s) = normalizeColorStr s ∧
    normalizeColorStr s ≠ pstr "default" := by
  rcases halias : assocFind colorAliases s with _ | out
  · by_cases hhex : (decide (s.length = 6) && s.all isHexChar) = true
    · -- six hex digits: the result "#…" is stable
      have hlen : s.length = 6 := by
        by_contra hc
        simp [hc] at hhex
      have hres : normalizeColorStr s = '#' :: s.map Char.toLower := by
        simp only [normalizeColorStr, halias]
        rw [if_pos hhex]
        simp [pstr]
      rw [hres]
      constructor
      · have hfind2 :
            assocFind colorAliases ('#' :: s.map Char.toLower) = none := by
          simp [colorAliases, assocFind, pstr]
        simp only [normalizeColorStr, hfind2]
        rw [if_neg (by simp [hlen]), if_neg (by simp [pstr, List.isPrefixOf])]
      · simp [pstr]
    · by_cases hbr :
          (((pstr "bright").isPrefixOf s) && !(s.contains '_')) = true
      · -- "bright…" without underscore: the rewrite "bright_…" is stable
        have hpre : (pstr "bright").isPrefixOf s = true := by
          by_contra hc
          rw [Bool.not_eq_true] at hc
          simp [hc] at hbr
        obtain ⟨t, ht⟩ := List.isPrefixOf_iff_prefix.mp hpre
        subst ht
        have hres : normalizeColorStr (pstr "bright" ++ t) =
            pstr "bright_" ++ t := by
          simp only [normalizeColorStr, halias]
          rw [if_neg hhex, if_pos hbr]
          simp [pstr]
        rw [hres]
        constructor
        · have hfind3 :
              assocFind colorAliases (pstr "bright_" ++ t) = none := by
            simp [colorAliases, assocFind, pstr]
          simp only [normalizeColorStr, hfind3]
          rw [if_neg (by simp [pstr, show isHexChar 'r' = false from by decide]),
            if_neg (by simp [pstr])]
        · simp [pstr]
      · -- untouched string: both branch conditions stay false
        have hres : normalizeColorStr s = s := by
          simp only [normalizeColorStr, halias]
          rw [if_neg hhex, if_neg hbr]
        constructor
        · rw [hres, hres]
        · rw [hres]
          exact hd
  · have hst := alias_out_stable s out halias
    have hres : normalizeColorStr s = out := by
      simp only [normalizeColorStr, halias]
    rw [hres]
    exact hst

/-- C10: `_normalize_color` is idempotent — applying it to its own
output (None, an indexed `color(N)` string, an aliased bright name, a
`#rrggbb` true color, or a passed-through string) changes nothing. -/
theorem normalize_color_idempotent :
    ∀ v : PyColor, normalizeColor (normalizeColor v) = normalizeColor v := by
  intro v
  rcases v with _ | n | s
  · decide
  · have h1 : normalizeColor (.pyint n) =
        .pystring (pstr "color(" ++ intDecimal n ++ pstr ")") := by
      simp [normalizeColor]
    rw [h1]
    have hfind : assocFind colorAliases
        (pstr "color(" ++ intDecimal n ++ pstr ")") = none := by
      simp [colorAliases, assocFind, pstr]
    have h2 : normalizeColor
        (.pystring (pstr "color(" ++ intDecimal n ++ pstr ")")) =
        .pystring (normalizeColorStr
          (pstr "color(" ++ intDecimal n ++ pstr ")")) := by
      simp only [normalizeColor]
      rw [if_neg (by simp [pstr])]
    rw [h2]
    have h3 : normalizeColorStr (pstr "color(" ++ intDecimal n ++ pstr ")") =
        pstr "color(" ++ intDecimal n ++ pstr ")" := by
      simp only [normalizeColorStr, hfind]
      rw [if_neg (by simp [pstr, show isHexChar 'o' = false from by decide]),
        if_neg (by simp [pstr, List.isPrefixOf])]
    rw [h3]
  · by_cases hdef : s = pstr "default"
    · subst hdef
      decide
    · have h1 : normalizeColor (.pystring s) =
          .pystring (normalizeColorStr s) := by
        simp [normalizeColor, hdef]
      rw [h1]
      obtain ⟨hstab, hnd⟩ := normalizeColorStr_stable s hdef
      have h2 : normalizeColor (.pystring (normalizeColorStr s)) =
          .pystring (normalizeColorStr (normalizeColorStr s)) := by
        simp [normalizeColor, hnd]
      rw [h2, hstab]
